import Mathlib

/-!
Verification of the Wayland windowing backend (crates/gpui/src/platform/linux).

This file shallowly embeds the dispatch handlers of
`platform/linux/wayland/client.rs`, `platform/linux/wayland/input.rs` and
`platform/linux/wayland/window.rs` as pure Lean functions over an explicit
client-state record, and proves properties of them.

Modelling conventions:
* The `SlotMap<WaylandWindowId, _>` window table is an association list
  `List (Nat × WaylandWindowState)` in insertion order; the panicking
  `Index` operator `state.windows[window_id]` is modelled by a lookup whose
  `none` case produces `Except.error` (a Rust panic).
* `f64` coordinates and scroll values are modelled as `ℚ`: the only
  arithmetic the handlers perform on them is multiplication by `±1`,
  which is exact in both `f64` and `ℚ`.
* Outbound protocol requests and toolkit-callback invocations are recorded,
  in issue order, in an `Effect` trace returned next to the new state.
* The xkbcommon keymap is opaque FFI; it is modelled as a record of
  abstract lookup functions (`key_get_utf32`, `key_get_utf8`,
  `key_get_one_sym` composed with `keysym_get_name`).
* The set of live `wl_callback` frame-callback objects (created by
  `surface.frame`, consumed when their `done` event is delivered) is
  tracked in the ghost field `pendingCallbacks`, a multiset of window ids.
-/

namespace Wayland

/-- Modifier flags recomputed by the keyboard Modifiers handler
(gpui `Modifiers`; only the four flags the backend touches). -/
structure Modifiers where
  shift : Bool
  alt : Bool
  control : Bool
  command : Bool
deriving DecidableEq, Repr

/-- Rust `Modifiers::default()`: all flags cleared. -/
def Modifiers.empty : Modifiers := ⟨false, false, false, false⟩

/-- gpui `MouseButton`, image of `linux_button_to_gpui`. -/
inductive MouseButton where
  | left
  | right
  | middle
deriving DecidableEq, Repr

/-- input.rs `linux_button_to_gpui`; the wildcard arm is `unimplemented!()`,
modelled as `none`. -/
def linux_button_to_gpui (button : Nat) : Option MouseButton :=
  if button = 0x110 then some .left
  else if button = 0x111 then some .right
  else if button = 0x112 then some .middle
  else none

/-- gpui `Point<Pixels>`; `f64`/`f32` pixel values modelled as `ℚ`. -/
structure Point where
  x : ℚ
  y : ℚ
deriving DecidableEq, Repr

/-- gpui `TouchPhase`; the axis handler always sends `Started`. -/
inductive TouchPhase where
  | started
  | moved
  | ended
deriving DecidableEq, Repr

/-- gpui `ScrollDelta::Pixels(Point)`. -/
inductive ScrollDelta where
  | pixels (x y : ℚ)
deriving DecidableEq, Repr

/-- gpui `Keystroke` as built by the Key handler. -/
structure Keystroke where
  modifiers : Modifiers
  key : String
  ime_key : Option String
deriving DecidableEq, Repr

/-- gpui `PlatformInput` variants produced by this backend. -/
inductive PlatformInput where
  | keyDown (keystroke : Keystroke) (is_held : Bool)
  | keyUp (keystroke : Keystroke)
  | mouseDown (button : MouseButton) (position : Point) (modifiers : Modifiers)
      (click_count : Nat)
  | mouseUp (button : MouseButton) (position : Point) (modifiers : Modifiers)
      (click_count : Nat)
  | mouseMove (position : Point) (pressed_button : Option MouseButton)
      (modifiers : Modifiers)
  | scrollWheel (position : Point) (delta : ScrollDelta) (modifiers : Modifiers)
      (touch_phase : TouchPhase)
deriving DecidableEq, Repr

/-- wayland `wl_pointer::AxisRelativeDirection` values the handler matches. -/
inductive AxisRelativeDirection where
  | identical
  | inverted
deriving DecidableEq, Repr

/-- wayland `wl_pointer::Axis` values the handler matches (others are
`unimplemented!()` and never delivered). -/
inductive Axis where
  | verticalScroll
  | horizontalScroll
deriving DecidableEq, Repr

/-- Abstract model of the compiled xkb keymap state: the three lookups the
Key handler performs on a (scancode-offset) keycode. `keySymName` is
`keysym_get_name(key_get_one_sym keycode)` before lowercasing. -/
structure XkbKeymapState where
  keyUtf32 : Nat → Nat
  keyUtf8 : Nat → String
  keySymName : Nat → String

/-- gpui `WindowBounds` as consumed by `WaylandWindowState::new`. -/
inductive WindowBounds where
  | fullscreen
  | maximized
  | fixed (originX originY width height : Int)
deriving DecidableEq, Repr

/-- gpui `WindowOptions` fields the backend reads. -/
structure WindowOptions where
  bounds : WindowBounds
deriving DecidableEq, Repr

/-- Which toolkit callbacks have been registered on a window (via the
`on_request_frame` / `on_resize` / `on_moved` / `on_should_close` /
`on_close` setters, which the toolkit calls right after `open_window`). -/
structure RegisteredCallbacks where
  request_frame : Bool
  resize : Bool
  moved : Bool
  should_close : Bool
  close : Bool
deriving DecidableEq, Repr

/-- Per-window state (`WaylandWindowInner` + its `WaylandWindowState`):
the surface proxy (identified by `surfaceId`), the geometry `bounds.size`,
the `frame_callback_requested` flag, and the registered-callback table. -/
structure WaylandWindowState where
  surfaceId : Nat
  width : Int
  height : Int
  frame_callback_requested : Bool
  callbacks : RegisteredCallbacks
deriving DecidableEq, Repr

/-- Outbound protocol requests and toolkit-callback invocations, recorded
in the order the handler issues them. `removeWindow` marks the point where
`state.windows.remove(window_id)` executes, so that ordering against the
`destroy` request is visible in the trace. -/
inductive Effect where
  | ackConfigure (windowId serial : Nat)
  | frameRequest (windowId : Nat)
  | commit (windowId : Nat)
  | destroyToplevel (windowId : Nat)
  | removeWindow (windowId : Nat)
  | pong (serial : Nat)
  | requestFrameCb (windowId : Nat)
  | updateDrawableSize (windowId : Nat) (width height : Int)
  | resizeCb (windowId : Nat) (width height : Int) (scale : ℚ)
  | movedCb (windowId : Nat)
  | shouldCloseCb (windowId : Nat)
  | closeCb (windowId : Nat)
  | dispatchInput (windowId : Nat) (input : PlatformInput)
deriving DecidableEq, Repr

/-- The aggregate `WaylandClientState` plus the process-wide
`LinuxPlatformState::quit_requested` flag it writes through
`platform_inner`, plus the ghost multiset of live frame callbacks.
The seat-local fields (`keymap_state`, `modifiers`, `scroll_direction`)
are stored here exactly as input.rs accesses them; their initial values
are the Rust `Default` ones (`None`, cleared flags, `0.0`). -/
structure WaylandClientState where
  windows : List (Nat × WaylandWindowState)
  nextWindowId : Nat
  mouse_location : Option Point
  button_pressed : Option MouseButton
  mouse_focused_window : Option Nat
  keyboard_focused_window : Option Nat
  keymap_state : Option XkbKeymapState
  modifiers : Modifiers
  scroll_direction : ℚ
  quit_requested : Bool
  pendingCallbacks : List Nat

/-- State at client startup: empty window table, no focus, no cached
location, no keymap; `quit_requested` is initialised to `false` in
`LinuxPlatform::new`; `scroll_direction` gets the derived
`f64::default()`, which is `0.0`. -/
def initialState : WaylandClientState where
  windows := []
  nextWindowId := 0
  mouse_location := none
  button_pressed := none
  mouse_focused_window := none
  keyboard_focused_window := none
  keymap_state := none
  modifiers := Modifiers.empty
  scroll_direction := 0
  quit_requested := false
  pendingCallbacks := []

/-- SlotMap lookup (`windows.get(id)`); keys are unique in reachable
states, so first match suffices. -/
def lookupWindow (ws : List (Nat × WaylandWindowState)) (id : Nat) :
    Option WaylandWindowState :=
  match ws with
  | [] => none
  | (i, w) :: rest => if i = id then some w else lookupWindow rest id

/-- Replace the value stored under `id` (in-place mutation of the slot). -/
def storeWindow (ws : List (Nat × WaylandWindowState)) (id : Nat)
    (w' : WaylandWindowState) : List (Nat × WaylandWindowState) :=
  match ws with
  | [] => []
  | (i, w) :: rest =>
      if i = id then (i, w') :: storeWindow rest id w'
      else (i, w) :: storeWindow rest id w'

/-- SlotMap `remove(id)`. -/
def dropWindow (ws : List (Nat × WaylandWindowState)) (id : Nat) :
    List (Nat × WaylandWindowState) :=
  match ws with
  | [] => []
  | (i, w) :: rest =>
      if i = id then dropWindow rest id else (i, w) :: dropWindow rest id

/-- window.rs `WaylandWindowState::update`: invoke the registered
`request_frame` callback, if any. -/
def windowUpdate (w : WaylandWindowState) (id : Nat) : List Effect :=
  if w.callbacks.request_frame then [.requestFrameCb id] else []

/-- window.rs `WaylandWindowState::resize`: store the new size, update the
renderer drawable size, then fire the `resize` (size, scale `1.0`) and
`moved` callbacks if registered. -/
def windowResize (w : WaylandWindowState) (id : Nat) (width height : Int) :
    WaylandWindowState × List Effect :=
  ({ w with width := width, height := height },
    [.updateDrawableSize id width height]
      ++ (if w.callbacks.resize then [.resizeCb id width height 1] else [])
      ++ (if w.callbacks.moved then [.movedCb id] else []))

/-- window.rs `WaylandWindowState::close`: fire the `close` callback if
registered, then destroy the toplevel. No dispatch handler calls this. -/
def windowClose (w : WaylandWindowState) (id : Nat) : List Effect :=
  (if w.callbacks.close then [.closeCb id] else []) ++ [.destroyToplevel id]

/-- Result of one dispatch handler: the new client state and the trace of
effects it issued, or an error when the Rust handler would panic. -/
abbrev HandlerResult := Except String (WaylandClientState × List Effect)

/-- client.rs `Dispatch<WlCallback>::event`, `Done` arm. Delivering the
`done` event consumes the fired `wl_callback` (ghost `erase`); the handler
then indexes `state.windows[window_id]` (panics when the id is gone),
requests a fresh frame callback, runs `update`, and commits. The
`frame_callback_requested` flag is not touched. -/
def wlCallbackDone (s : WaylandClientState) (windowId : Nat) : HandlerResult :=
  match lookupWindow s.windows windowId with
  | none => .error "invalid SlotMap key used in wl_callback Done"
  | some window =>
      .ok ({ s with pendingCallbacks :=
               (s.pendingCallbacks.erase windowId) ++ [windowId] },
        [.frameRequest windowId] ++ windowUpdate window windowId
          ++ [.commit windowId])

/-- client.rs `Dispatch<XdgSurface>::event`, `Configure` arm: ack the
serial first, index the window table (panic when the id is gone), request a
frame callback unless one was already requested, run `update`, commit. -/
def xdgSurfaceConfigure (s : WaylandClientState) (windowId serial : Nat) :
    HandlerResult :=
  match lookupWindow s.windows windowId with
  | none => .error "invalid SlotMap key used in xdg_surface Configure"
  | some window =>
      let frame_callback_already_requested := window.frame_callback_requested
      let window' := { window with frame_callback_requested := true }
      .ok ({ s with
              windows := storeWindow s.windows windowId window'
              pendingCallbacks :=
                if frame_callback_already_requested then s.pendingCallbacks
                else s.pendingCallbacks ++ [windowId] },
        [.ackConfigure windowId serial]
          ++ (if frame_callback_already_requested then []
              else [.frameRequest windowId])
          ++ windowUpdate window' windowId ++ [.commit windowId])

/-- client.rs `Dispatch<XdgToplevel>::event`, `Configure` arm: replace a
zero width or height by the fallback `(1280, 720)`, then index the window
table (panic when the id is gone) and run `resize`. -/
def xdgToplevelConfigure (s : WaylandClientState) (windowId : Nat)
    (width height : Int) : HandlerResult :=
  let sz := if width = 0 ∨ height = 0 then ((1280 : Int), (720 : Int))
            else (width, height)
  match lookupWindow s.windows windowId with
  | none => .error "invalid SlotMap key used in xdg_toplevel Configure"
  | some window =>
      let (window', tr) := windowResize window windowId sz.1 sz.2
      .ok ({ s with windows := storeWindow s.windows windowId window' }, tr)

/-- client.rs `Dispatch<XdgToplevel>::event`, `Close` arm: destroy the
toplevel proxy, remove the window from the table (a no-op when the id is
gone; no indexing, hence no panic), then
`quit_requested |= windows.is_empty()`. Focus fields are not touched. -/
def xdgToplevelClose (s : WaylandClientState) (windowId : Nat) :
    HandlerResult :=
  let windows' := dropWindow s.windows windowId
  .ok ({ s with
          windows := windows'
          quit_requested := s.quit_requested || windows'.isEmpty },
    [.destroyToplevel windowId, .removeWindow windowId])

/-- client.rs `Dispatch<XdgWmBase>::event`: answer `Ping` with `pong`. -/
def xdgWmBasePing (s : WaylandClientState) (serial : Nat) : HandlerResult :=
  .ok (s, [.pong serial])

/-- input.rs keyboard `Keymap` arm: `assert_eq!(format, XkbV1)` panics on
any other format; otherwise the compiled keymap state is installed. -/
def wlKeyboardKeymap (s : WaylandClientState) (formatIsXkbV1 : Bool)
    (km : XkbKeymapState) : HandlerResult :=
  if formatIsXkbV1 then .ok ({ s with keymap_state := some km }, [])
  else .error "Unsupported keymap format"

/-- input.rs keyboard `Enter` arm: scan the window table for the entered
surface and point `keyboard_focused_window` at the matching window; the
focus is left unchanged when no window matches. -/
def wlKeyboardEnter (s : WaylandClientState) (surfaceId : Nat) :
    HandlerResult :=
  .ok ({ s with keyboard_focused_window :=
          (s.windows.foldl
            (fun acc p => if p.2.surfaceId = surfaceId then some p.1 else acc)
            s.keyboard_focused_window) },
    [])

/-- input.rs keyboard `Key` arm: `keymap_state.as_ref().unwrap()` panics
with no keymap; the scancode is offset by `MIN_KEYCODE = 8`; `ime_key` is
attached iff `key_utf32 == 0 || (key_utf32 >= 32 && key_utf32 != 127)`;
the event goes to the keyboard-focused window only, with `is_held` false. -/
def wlKeyboardKey (s : WaylandClientState) (key : Nat) (pressed : Bool) :
    HandlerResult :=
  match s.keymap_state with
  | none => .error "called Option unwrap on a None value"
  | some keymap_state =>
      let keycode := key + 8
      let key_utf32 := keymap_state.keyUtf32 keycode
      let key_utf8 := keymap_state.keyUtf8 keycode
      let keyName := (keymap_state.keySymName keycode).toLower
      let ime_key := if key_utf32 = 0 ∨ (32 ≤ key_utf32 ∧ key_utf32 ≠ 127)
                     then some key_utf8 else none
      match s.keyboard_focused_window with
      | some focused =>
          let keystroke : Keystroke := ⟨s.modifiers, keyName, ime_key⟩
          .ok (s, [.dispatchInput focused
            (if pressed then .keyDown keystroke false else .keyUp keystroke)])
      | none => .ok (s, [])

/-- input.rs keyboard `Leave` arm: nothing (focus is not cleared). -/
def wlKeyboardLeave (s : WaylandClientState) : HandlerResult := .ok (s, [])

/-- input.rs pointer `Enter` arm: scan the table for the entered surface,
point `mouse_focused_window` at the match, and cache the entry location. -/
def wlPointerEnter (s : WaylandClientState) (surfaceId : Nat) (x y : ℚ) :
    HandlerResult :=
  .ok ({ s with
          mouse_focused_window :=
            (s.windows.foldl
              (fun acc p => if p.2.surfaceId = surfaceId then some p.1 else acc)
              s.mouse_focused_window)
          mouse_location := some ⟨x, y⟩ },
    [])

/-- input.rs pointer `Motion` arm: only when a window is mouse-focused,
cache the new location and dispatch a move event with it, the pressed
button, and the current modifiers. With no focused window the handler body
does nothing: the cached location is not updated. -/
def wlPointerMotion (s : WaylandClientState) (x y : ℚ) : HandlerResult :=
  match s.mouse_focused_window with
  | some focused =>
      .ok ({ s with mouse_location := some ⟨x, y⟩ },
        [.dispatchInput focused
          (.mouseMove ⟨x, y⟩ s.button_pressed s.modifiers)])
  | none => .ok (s, [])

/-- input.rs pointer `Button` arm: requires both a focused window and a
cached location; press records the button and dispatches mouse-down with
click count 1; release clears the button and dispatches mouse-up with
`Modifiers::default()`. An unrecognised button code is `unimplemented!()`. -/
def wlPointerButton (s : WaylandClientState) (button : Nat) (pressed : Bool) :
    HandlerResult :=
  match s.mouse_focused_window, s.mouse_location with
  | some focused, some mouse_location =>
      match linux_button_to_gpui button with
      | none => .error "not implemented: unrecognised mouse button"
      | some b =>
          if pressed then
            .ok ({ s with button_pressed := some b },
              [.dispatchInput focused
                (.mouseDown b mouse_location s.modifiers 1)])
          else
            .ok ({ s with button_pressed := none },
              [.dispatchInput focused
                (.mouseUp b mouse_location Modifiers.empty 1)])
  | _, _ => .ok (s, [])

/-- input.rs pointer `AxisRelativeDirection` arm: `Identical ↦ -1.0`,
`Inverted ↦ 1.0` (the wildcard arm, `-1.0`, covers no further value of the
modelled enum). -/
def wlPointerAxisRelativeDirection (s : WaylandClientState)
    (direction : AxisRelativeDirection) : HandlerResult :=
  .ok ({ s with scroll_direction :=
          (match direction with
            | .identical => -1
            | .inverted => 1) },
    [])

/-- input.rs pointer `Axis` arm: requires a focused window and a cached
location; multiplies the raw value by `scroll_direction` and dispatches a
pixel-delta scroll event along the indicated axis. -/
def wlPointerAxis (s : WaylandClientState) (axis : Axis) (value : ℚ) :
    HandlerResult :=
  match s.mouse_focused_window, s.mouse_location with
  | some focused, some mouse_location =>
      let value := value * s.scroll_direction
      .ok (s, [.dispatchInput focused
        (.scrollWheel mouse_location
          (match axis with
            | .verticalScroll => .pixels 0 value
            | .horizontalScroll => .pixels value 0)
          s.modifiers .started)])
  | _, _ => .ok (s, [])

/-- input.rs pointer `Leave` arm: synthetic move to the origin with no
button and default modifiers, then clear the focus and cached location. -/
def wlPointerLeave (s : WaylandClientState) : HandlerResult :=
  .ok ({ s with mouse_focused_window := none, mouse_location := none },
    match s.mouse_focused_window with
    | some focused =>
        [.dispatchInput focused (.mouseMove ⟨0, 0⟩ none Modifiers.empty)]
    | none => [])

/-- client.rs `WaylandClient::open_window` together with
`WaylandWindowState::new`: insert a fresh window under the next SlotMap
key; its surface is created for it (modelled: `surfaceId` = the key);
maximized/fullscreen options get the placeholder size `500×500`, fixed
bounds are taken from the options. The toolkit registers callbacks on the
returned handle immediately afterwards; those registrations are passed in
as `cbs`. Returns the new state and the fresh window id. -/
def openWindow (s : WaylandClientState) (options : WindowOptions)
    (cbs : RegisteredCallbacks) : WaylandClientState × Nat :=
  let id := s.nextWindowId
  let sz : Int × Int :=
    match options.bounds with
    | .fullscreen | .maximized => (500, 500)
    | .fixed _ _ width height => (width, height)
  let w : WaylandWindowState :=
    { surfaceId := id
      width := sz.1
      height := sz.2
      frame_callback_requested := false
      callbacks := cbs }
  ({ s with windows := s.windows ++ [(id, w)], nextWindowId := id + 1 }, id)

/-- Protocol events the dispatcher routes, one constructor per handled
event arm (ignored arms such as `ConfigureBounds` and `WmCapabilities`
are represented by their no-op constructors). -/
inductive WaylandEvent where
  | callbackDone (windowId : Nat)
  | surfaceConfigure (windowId serial : Nat)
  | toplevelConfigure (windowId : Nat) (width height : Int)
  | toplevelClose (windowId : Nat)
  | toplevelConfigureBounds
  | toplevelWmCapabilities
  | wmBasePing (serial : Nat)
  | keyboardKeymap (formatIsXkbV1 : Bool) (km : XkbKeymapState)
  | keyboardEnter (surfaceId : Nat)
  | keyboardKey (key : Nat) (pressed : Bool)
  | keyboardLeave
  | pointerEnter (surfaceId : Nat) (x y : ℚ)
  | pointerMotion (x y : ℚ)
  | pointerButton (button : Nat) (pressed : Bool)
  | pointerAxisRelativeDirection (direction : AxisRelativeDirection)
  | pointerAxis (axis : Axis) (value : ℚ)
  | pointerLeave

/-- The dispatcher: route each decoded event to its interface handler. -/
def dispatchEvent (s : WaylandClientState) : WaylandEvent → HandlerResult
  | .callbackDone windowId => wlCallbackDone s windowId
  | .surfaceConfigure windowId serial => xdgSurfaceConfigure s windowId serial
  | .toplevelConfigure windowId width height =>
      xdgToplevelConfigure s windowId width height
  | .toplevelClose windowId => xdgToplevelClose s windowId
  | .toplevelConfigureBounds => .ok (s, [])
  | .toplevelWmCapabilities => .ok (s, [])
  | .wmBasePing serial => xdgWmBasePing s serial
  | .keyboardKeymap f km => wlKeyboardKeymap s f km
  | .keyboardEnter surfaceId => wlKeyboardEnter s surfaceId
  | .keyboardKey key pressed => wlKeyboardKey s key pressed
  | .keyboardLeave => wlKeyboardLeave s
  | .pointerEnter surfaceId x y => wlPointerEnter s surfaceId x y
  | .pointerMotion x y => wlPointerMotion s x y
  | .pointerButton button pressed => wlPointerButton s button pressed
  | .pointerAxisRelativeDirection d => wlPointerAxisRelativeDirection s d
  | .pointerAxis axis value => wlPointerAxis s axis value
  | .pointerLeave => wlPointerLeave s

/-- Environment assumption on event delivery: the server fires a frame
callback `done` only for a `wl_callback` object the client actually
created (and each such object fires at most once). All other events may
arrive at any time. -/
def deliverable (s : WaylandClientState) : WaylandEvent → Prop
  | .callbackDone windowId => windowId ∈ s.pendingCallbacks
  | _ => True

/-- Client states reachable from startup by `open_window` calls and
deliverable protocol events whose handler does not panic. -/
inductive Reachable : WaylandClientState → Prop where
  | init : Reachable initialState
  | openWindow {s} (options : WindowOptions) (cbs : RegisteredCallbacks) :
      Reachable s → Reachable (openWindow s options cbs).1
  | step {s s' : WaylandClientState} {e : WaylandEvent} {tr : List Effect} :
      Reachable s → deliverable s e → dispatchEvent s e = .ok (s', tr) →
      Reachable s'

theorem lookupWindow_mem {ws : List (Nat × WaylandWindowState)} {id : Nat}
    {w : WaylandWindowState} (h : lookupWindow ws id = some w) : (id, w) ∈ ws := by
  induction ws with
  | nil => simp [lookupWindow] at h
  | cons p rest ih =>
      obtain ⟨i, v⟩ := p
      simp only [lookupWindow] at h
      by_cases hi : i = id
      · simp [hi] at h
        subst hi h
        exact List.mem_cons_self _ _
      · simp [hi] at h
        exact List.mem_cons_of_mem _ (ih h)

theorem lookupWindow_of_mem {ws : List (Nat × WaylandWindowState)}
    (hnd : (ws.map Prod.fst).Nodup) {id : Nat} {w : WaylandWindowState}
    (hm : (id, w) ∈ ws) : lookupWindow ws id = some w := by
  induction ws with
  | nil => simp at hm
  | cons p rest ih =>
      obtain ⟨i, v⟩ := p
      simp only [List.map_cons, List.nodup_cons] at hnd
      rcases List.mem_cons.mp hm with heq | hmem
      · rw [Prod.mk.injEq] at heq
        obtain ⟨h1, h2⟩ := heq
        subst h1
        subst h2
        simp [lookupWindow]
      · have hne : i ≠ id := by
          intro hcontra
          subst hcontra
          exact hnd.1 (List.mem_map.mpr ⟨(i, w), hmem, rfl⟩)
        simp only [lookupWindow, if_neg hne]
        exact ih hnd.2 hmem

theorem lookupWindow_eq_none {ws : List (Nat × WaylandWindowState)} {id : Nat}
    (h : id ∉ ws.map Prod.fst) : lookupWindow ws id = none := by
  induction ws with
  | nil => rfl
  | cons p rest ih =>
      obtain ⟨i, v⟩ := p
      simp only [List.map_cons, List.mem_cons] at h
      push_neg at h
      simp only [lookupWindow, if_neg (fun hc : i = id => h.1 hc.symm)]
      exact ih h.2

theorem storeWindow_keys (ws : List (Nat × WaylandWindowState)) (id : Nat)
    (w' : WaylandWindowState) :
    (storeWindow ws id w').map Prod.fst = ws.map Prod.fst := by
  induction ws with
  | nil => rfl
  | cons p rest ih =>
      obtain ⟨i, v⟩ := p
      by_cases hi : i = id <;> simp [storeWindow, hi, ih]

theorem mem_storeWindow {ws : List (Nat × WaylandWindowState)} {id : Nat}
    {w' : WaylandWindowState} {p : Nat × WaylandWindowState}
    (h : p ∈ storeWindow ws id w') :
    (p.1 ≠ id ∧ p ∈ ws) ∨ p = (id, w') := by
  induction ws with
  | nil => simp [storeWindow] at h
  | cons q rest ih =>
      obtain ⟨i, v⟩ := q
      by_cases hi : i = id
      · simp only [storeWindow, if_pos hi] at h
        rw [List.mem_cons] at h
        rcases h with h | h
        · right; rw [h, hi]
        · rcases ih h with ⟨h1, h2⟩ | h1
          · exact Or.inl ⟨h1, List.mem_cons_of_mem _ h2⟩
          · right; exact h1
      · simp only [storeWindow, if_neg hi, List.mem_cons] at h
        rcases h with h | h
        · subst h
          exact Or.inl ⟨hi, List.mem_cons_self _ _⟩
        · rcases ih h with ⟨h1, h2⟩ | h1
          · exact Or.inl ⟨h1, List.mem_cons_of_mem _ h2⟩
          · right; exact h1

theorem lookupWindow_storeWindow_self {ws : List (Nat × WaylandWindowState)}
    {id : Nat} {w w' : WaylandWindowState} (h : lookupWindow ws id = some w) :
    lookupWindow (storeWindow ws id w') id = some w' := by
  induction ws with
  | nil => simp [lookupWindow] at h
  | cons p rest ih =>
      obtain ⟨i, v⟩ := p
      simp only [lookupWindow] at h
      by_cases hi : i = id
      · simp [storeWindow, hi, lookupWindow]
      · simp only [if_neg hi] at h
        simp only [storeWindow, if_neg hi, lookupWindow]
        exact ih h

theorem dropWindow_eq_self {ws : List (Nat × WaylandWindowState)} {id : Nat}
    (h : id ∉ ws.map Prod.fst) : dropWindow ws id = ws := by
  induction ws with
  | nil => rfl
  | cons p rest ih =>
      obtain ⟨i, v⟩ := p
      simp only [List.map_cons, List.mem_cons] at h
      push_neg at h
      simp only [dropWindow, if_neg (fun hc : i = id => h.1 hc.symm)]
      rw [ih h.2]

theorem mem_dropWindow {ws : List (Nat × WaylandWindowState)} {id : Nat}
    {p : Nat × WaylandWindowState} (h : p ∈ dropWindow ws id) :
    p ∈ ws ∧ p.1 ≠ id := by
  induction ws with
  | nil => simp [dropWindow] at h
  | cons q rest ih =>
      obtain ⟨i, v⟩ := q
      by_cases hi : i = id
      · simp only [dropWindow, if_pos hi] at h
        obtain ⟨h1, h2⟩ := ih h
        exact ⟨List.mem_cons_of_mem _ h1, h2⟩
      · simp only [dropWindow, if_neg hi, List.mem_cons] at h
        rcases h with h | h
        · subst h
          exact ⟨List.mem_cons_self _ _, hi⟩
        · obtain ⟨h1, h2⟩ := ih h
          exact ⟨List.mem_cons_of_mem _ h1, h2⟩

theorem dropWindow_keys_sublist (ws : List (Nat × WaylandWindowState))
    (id : Nat) :
    ((dropWindow ws id).map Prod.fst).Sublist (ws.map Prod.fst) := by
  induction ws with
  | nil => simp [dropWindow]
  | cons p rest ih =>
      obtain ⟨i, v⟩ := p
      by_cases hi : i = id
      · simp only [dropWindow, if_pos hi, List.map_cons]
        exact ih.trans (List.sublist_cons_self _ _)
      · simp only [dropWindow, if_neg hi, List.map_cons]
        exact ih.cons₂ _

theorem lookupWindow_dropWindow_self (ws : List (Nat × WaylandWindowState))
    (id : Nat) : lookupWindow (dropWindow ws id) id = none := by
  apply lookupWindow_eq_none
  intro hmem
  obtain ⟨p, hp, hp1⟩ := List.mem_map.mp hmem
  exact (mem_dropWindow hp).2 hp1

theorem dropWindow_length {ws : List (Nat × WaylandWindowState)} {id : Nat}
    {w : WaylandWindowState} (hnd : (ws.map Prod.fst).Nodup)
    (h : lookupWindow ws id = some w) :
    (dropWindow ws id).length + 1 = ws.length := by
  induction ws with
  | nil => simp [lookupWindow] at h
  | cons p rest ih =>
      obtain ⟨i, v⟩ := p
      simp only [List.map_cons, List.nodup_cons] at hnd
      simp only [lookupWindow] at h
      by_cases hi : i = id
      · subst hi
        simp only [dropWindow, if_pos rfl]
        rw [dropWindow_eq_self hnd.1]
        simp
      · simp only [if_neg hi] at h
        simp only [dropWindow, if_neg hi, List.length_cons]
        rw [ih hnd.2 h]

theorem count_erase_append_self {l : List Nat} {a : Nat} (hd : a ∈ l)
    (b : Nat) : ((l.erase a) ++ [a]).count b = l.count b := by
  rw [List.count_append]
  by_cases hb : b = a
  · subst hb
    rw [List.count_erase_self]
    have h1 : 1 ≤ l.count b := List.one_le_count_iff.mpr hd
    simp
    omega
  · rw [List.count_erase_of_ne hb]
    simp [hb]

/-- Structural invariant of reachable client states: window keys are
distinct and below the fresh-key counter, live frame callbacks reference
keys below the counter, a window in the table has exactly one live frame
callback when its `frame_callback_requested` flag is set and none
otherwise, and no window id ever has two live frame callbacks. -/
structure GoodState (s : WaylandClientState) : Prop where
  keysNodup : (s.windows.map Prod.fst).Nodup
  winBound : ∀ p ∈ s.windows, p.1 < s.nextWindowId
  pendBound : ∀ id ∈ s.pendingCallbacks, id < s.nextWindowId
  pendCount : ∀ p ∈ s.windows,
      s.pendingCallbacks.count p.1 =
        (if p.2.frame_callback_requested then 1 else 0)
  pendAtMostOne : ∀ id, s.pendingCallbacks.count id ≤ 1

theorem GoodState.congr {s s' : WaylandClientState} (h : GoodState s)
    (hw : s'.windows = s.windows) (hn : s'.nextWindowId = s.nextWindowId)
    (hp : s'.pendingCallbacks = s.pendingCallbacks) : GoodState s' := by
  constructor
  · rw [hw]; exact h.keysNodup
  · rw [hw, hn]; exact h.winBound
  · rw [hp, hn]; exact h.pendBound
  · rw [hw, hp]; exact h.pendCount
  · rw [hp]; exact h.pendAtMostOne

theorem goodState_openWindow (s : WaylandClientState)
    (options : WindowOptions) (cbs : RegisteredCallbacks)
    (h : GoodState s) : GoodState (openWindow s options cbs).1 := by
  constructor
  · simp only [openWindow, List.map_append, List.map_cons, List.map_nil]
    rw [List.nodup_append]
    refine ⟨h.keysNodup, List.nodup_singleton _, ?_⟩
    intro a ha hb
    simp only [List.mem_singleton] at hb
    subst hb
    obtain ⟨p, hp, hp1⟩ := List.mem_map.mp ha
    exact absurd (hp1 ▸ h.winBound p hp) (lt_irrefl _)
  · intro p hp
    simp only [openWindow, List.mem_append, List.mem_singleton] at hp
    rcases hp with hp | hp
    · exact Nat.lt_succ_of_lt (h.winBound p hp)
    · subst hp
      exact Nat.lt_succ_self _
  · intro id hid
    simp only [openWindow] at hid ⊢
    exact Nat.lt_succ_of_lt (h.pendBound id hid)
  · intro p hp
    simp only [openWindow, List.mem_append, List.mem_singleton] at hp ⊢
    rcases hp with hp | hp
    · exact h.pendCount p hp
    · subst hp
      simp only [if_neg (by simp : ¬ false = true)]
      exact List.count_eq_zero.mpr fun hc =>
        absurd (h.pendBound _ hc) (lt_irrefl _)
  · intro id
    simp only [openWindow]
    exact h.pendAtMostOne id

theorem goodState_wlCallbackDone {s s' : WaylandClientState} {id : Nat}
    {tr : List Effect} (h : GoodState s) (hd : id ∈ s.pendingCallbacks)
    (hstep : wlCallbackDone s id = .ok (s', tr)) : GoodState s' := by
  unfold wlCallbackDone at hstep
  cases hlook : lookupWindow s.windows id with
  | none => rw [hlook] at hstep; exact absurd hstep (by simp)
  | some w =>
      rw [hlook] at hstep
      simp only [Except.ok.injEq, Prod.mk.injEq] at hstep
      obtain ⟨hs, htr⟩ := hstep
      subst hs
      constructor
      · exact h.keysNodup
      · exact h.winBound
      · intro x hx
        simp only [List.mem_append, List.mem_singleton] at hx
        rcases hx with hx | hx
        · exact h.pendBound x (List.erase_subset _ _ hx)
        · subst hx
          exact h.pendBound x hd
      · intro p hp
        rw [count_erase_append_self hd]
        exact h.pendCount p hp
      · intro b
        rw [count_erase_append_self hd]
        exact h.pendAtMostOne b

theorem goodState_xdgSurfaceConfigure {s s' : WaylandClientState}
    {id serial : Nat} {tr : List Effect} (h : GoodState s)
    (hstep : xdgSurfaceConfigure s id serial = .ok (s', tr)) : GoodState s' := by
  unfold xdgSurfaceConfigure at hstep
  cases hlook : lookupWindow s.windows id with
  | none => rw [hlook] at hstep; exact absurd hstep (by simp)
  | some w =>
      rw [hlook] at hstep
      simp only [Except.ok.injEq, Prod.mk.injEq] at hstep
      obtain ⟨hs, htr⟩ := hstep
      subst hs
      have hmem : (id, w) ∈ s.windows := lookupWindow_mem hlook
      have hidlt : id < s.nextWindowId := h.winBound _ hmem
      have hcnt : s.pendingCallbacks.count id =
          (if w.frame_callback_requested then 1 else 0) := h.pendCount _ hmem
      by_cases halready : w.frame_callback_requested
      · constructor
        · simpa [storeWindow_keys] using h.keysNodup
        · intro p hp
          simp only at hp
          rcases mem_storeWindow hp with ⟨_, hold⟩ | hnew
          · exact h.winBound p hold
          · subst hnew; exact hidlt
        · simpa [halready] using h.pendBound
        · intro p hp
          simp only [if_pos halready] at hp ⊢
          rcases mem_storeWindow hp with ⟨_, hold⟩ | hnew
          · exact h.pendCount p hold
          · subst hnew
            simpa [halready] using hcnt
        · simpa [halready] using h.pendAtMostOne
      · have hcnt0 : s.pendingCallbacks.count id = 0 := by
          simpa [halready] using hcnt
        constructor
        · simpa [storeWindow_keys] using h.keysNodup
        · intro p hp
          simp only at hp
          rcases mem_storeWindow hp with ⟨_, hold⟩ | hnew
          · exact h.winBound p hold
          · subst hnew; exact hidlt
        · intro x hx
          simp only [if_neg halready, List.mem_append, List.mem_singleton] at hx
          rcases hx with hx | hx
          · exact h.pendBound x hx
          · subst hx; exact hidlt
        · intro p hp
          simp only [if_neg halready] at hp ⊢
          rcases mem_storeWindow hp with ⟨hne, hold⟩ | hnew
          · rw [List.count_append]
            simpa [hne] using h.pendCount p hold
          · subst hnew
            rw [List.count_append]
            simp [hcnt0]
        · intro b
          simp only [if_neg halready]
          rw [List.count_append]
          by_cases hb : b = id
          · subst hb; simp [hcnt0]
          · simpa [hb] using h.pendAtMostOne b

theorem goodState_xdgToplevelConfigure {s s' : WaylandClientState}
    {id : Nat} {width height : Int} {tr : List Effect} (h : GoodState s)
    (hstep : xdgToplevelConfigure s id width height = .ok (s', tr)) :
    GoodState s' := by
  unfold xdgToplevelConfigure at hstep
  cases hlook : lookupWindow s.windows id with
  | none => rw [hlook] at hstep; exact absurd hstep (by simp)
  | some w =>
      rw [hlook] at hstep
      simp only [windowResize, Except.ok.injEq, Prod.mk.injEq] at hstep
      obtain ⟨hs, htr⟩ := hstep
      subst hs
      have hmem : (id, w) ∈ s.windows := lookupWindow_mem hlook
      constructor
      · simpa [storeWindow_keys] using h.keysNodup
      · intro p hp
        rcases mem_storeWindow hp with ⟨_, hold⟩ | hnew
        · exact h.winBound p hold
        · subst hnew; exact h.winBound (id, w) hmem
      · exact h.pendBound
      · intro p hp
        rcases mem_storeWindow hp with ⟨_, hold⟩ | hnew
        · exact h.pendCount p hold
        · subst hnew
          exact h.pendCount (id, w) hmem
      · exact h.pendAtMostOne

theorem goodState_xdgToplevelClose {s s' : WaylandClientState} {id : Nat}
    {tr : List Effect} (h : GoodState s)
    (hstep : xdgToplevelClose s id = .ok (s', tr)) : GoodState s' := by
  unfold xdgToplevelClose at hstep
  simp only [Except.ok.injEq, Prod.mk.injEq] at hstep
  obtain ⟨hs, htr⟩ := hstep
  subst hs
  constructor
  · exact List.Nodup.sublist (dropWindow_keys_sublist _ _) h.keysNodup
  · intro p hp
    exact h.winBound p (mem_dropWindow hp).1
  · exact h.pendBound
  · intro p hp
    exact h.pendCount p (mem_dropWindow hp).1
  · exact h.pendAtMostOne

theorem goodState_dispatch {s s' : WaylandClientState} {e : WaylandEvent}
    {tr : List Effect} (h : GoodState s) (hd : deliverable s e)
    (hstep : dispatchEvent s e = .ok (s', tr)) : GoodState s' := by
  cases e with
  | callbackDone id => exact goodState_wlCallbackDone h hd hstep
  | surfaceConfigure id serial => exact goodState_xdgSurfaceConfigure h hstep
  | toplevelConfigure id width height =>
      exact goodState_xdgToplevelConfigure h hstep
  | toplevelClose id => exact goodState_xdgToplevelClose h hstep
  | toplevelConfigureBounds =>
      simp only [dispatchEvent, Except.ok.injEq, Prod.mk.injEq] at hstep
      obtain ⟨hs, _⟩ := hstep
      subst hs
      exact h
  | toplevelWmCapabilities =>
      simp only [dispatchEvent, Except.ok.injEq, Prod.mk.injEq] at hstep
      obtain ⟨hs, _⟩ := hstep
      subst hs
      exact h
  | wmBasePing serial =>
      simp only [dispatchEvent, xdgWmBasePing, Except.ok.injEq,
        Prod.mk.injEq] at hstep
      obtain ⟨hs, _⟩ := hstep
      subst hs
      exact h
  | keyboardKeymap f km =>
      simp only [dispatchEvent, wlKeyboardKeymap] at hstep
      by_cases hf : f = true
      · simp only [if_pos hf, Except.ok.injEq, Prod.mk.injEq] at hstep
        obtain ⟨hs, _⟩ := hstep
        subst hs
        exact h.congr rfl rfl rfl
      · simp only [hf] at hstep
        simp at hstep
  | keyboardEnter surfaceId =>
      simp only [dispatchEvent, wlKeyboardEnter, Except.ok.injEq,
        Prod.mk.injEq] at hstep
      obtain ⟨hs, _⟩ := hstep
      subst hs
      exact h.congr rfl rfl rfl
  | keyboardKey key pressed =>
      simp only [dispatchEvent, wlKeyboardKey] at hstep
      cases hk : s.keymap_state with
      | none => rw [hk] at hstep; exact absurd hstep (by simp)
      | some km =>
          rw [hk] at hstep
          cases hf : s.keyboard_focused_window with
          | some focused =>
              rw [hf] at hstep
              simp only [Except.ok.injEq, Prod.mk.injEq] at hstep
              obtain ⟨hs, _⟩ := hstep
              subst hs
              exact h
          | none =>
              rw [hf] at hstep
              simp only [Except.ok.injEq, Prod.mk.injEq] at hstep
              obtain ⟨hs, _⟩ := hstep
              subst hs
              exact h
  | keyboardLeave =>
      simp only [dispatchEvent, wlKeyboardLeave, Except.ok.injEq,
        Prod.mk.injEq] at hstep
      obtain ⟨hs, _⟩ := hstep
      subst hs
      exact h
  | pointerEnter surfaceId x y =>
      simp only [dispatchEvent, wlPointerEnter, Except.ok.injEq,
        Prod.mk.injEq] at hstep
      obtain ⟨hs, _⟩ := hstep
      subst hs
      exact h.congr rfl rfl rfl
  | pointerMotion x y =>
      simp only [dispatchEvent, wlPointerMotion] at hstep
      cases hf : s.mouse_focused_window with
      | some focused =>
          rw [hf] at hstep
          simp only [Except.ok.injEq, Prod.mk.injEq] at hstep
          obtain ⟨hs, _⟩ := hstep
          subst hs
          exact h.congr rfl rfl rfl
      | none =>
          rw [hf] at hstep
          simp only [Except.ok.injEq, Prod.mk.injEq] at hstep
          obtain ⟨hs, _⟩ := hstep
          subst hs
          exact h
  | pointerButton button pressed =>
      simp only [dispatchEvent, wlPointerButton] at hstep
      cases hf : s.mouse_focused_window with
      | none =>
          rw [hf] at hstep
          simp only [Except.ok.injEq, Prod.mk.injEq] at hstep
          obtain ⟨hs, _⟩ := hstep
          subst hs
          exact h
      | some focused =>
          rw [hf] at hstep
          cases hl : s.mouse_location with
          | none =>
              rw [hl] at hstep
              simp only [Except.ok.injEq, Prod.mk.injEq] at hstep
              obtain ⟨hs, _⟩ := hstep
              subst hs
              exact h
          | some loc =>
              rw [hl] at hstep
              cases hb : linux_button_to_gpui button with
              | none => rw [hb] at hstep; exact absurd hstep (by simp)
              | some b =>
                  rw [hb] at hstep
                  by_cases hp : pressed = true
                  · simp only [if_pos hp, Except.ok.injEq,
                      Prod.mk.injEq] at hstep
                    obtain ⟨hs, _⟩ := hstep
                    subst hs
                    exact h.congr rfl rfl rfl
                  · simp only [if_neg hp, Except.ok.injEq,
                      Prod.mk.injEq] at hstep
                    obtain ⟨hs, _⟩ := hstep
                    subst hs
                    exact h.congr rfl rfl rfl
  | pointerAxisRelativeDirection d =>
      simp only [dispatchEvent, wlPointerAxisRelativeDirection,
        Except.ok.injEq, Prod.mk.injEq] at hstep
      obtain ⟨hs, _⟩ := hstep
      subst hs
      exact h.congr rfl rfl rfl
  | pointerAxis axis value =>
      simp only [dispatchEvent, wlPointerAxis] at hstep
      cases hf : s.mouse_focused_window with
      | none =>
          rw [hf] at hstep
          simp only [Except.ok.injEq, Prod.mk.injEq] at hstep
          obtain ⟨hs, _⟩ := hstep
          subst hs
          exact h
      | some focused =>
          rw [hf] at hstep
          cases hl : s.mouse_location with
          | none =>
              rw [hl] at hstep
              simp only [Except.ok.injEq, Prod.mk.injEq] at hstep
              obtain ⟨hs, _⟩ := hstep
              subst hs
              exact h
          | some loc =>
              rw [hl] at hstep
              simp only [Except.ok.injEq, Prod.mk.injEq] at hstep
              obtain ⟨hs, _⟩ := hstep
              subst hs
              exact h
  | pointerLeave =>
      simp only [dispatchEvent, wlPointerLeave, Except.ok.injEq,
        Prod.mk.injEq] at hstep
      obtain ⟨hs, _⟩ := hstep
      subst hs
      exact h.congr rfl rfl rfl

/-- Every reachable client state satisfies the structural invariant. -/
theorem reachable_goodState {s : WaylandClientState} (h : Reachable s) :
    GoodState s := by
  induction h with
  | init =>
      constructor <;> simp [initialState]
  | openWindow options cbs _ ih => exact goodState_openWindow _ options cbs ih
  | step hr hd hstep ih => exact goodState_dispatch ih hd hstep

/-- New state after one dispatch step (the old state when the handler
panics); used to build concrete reachable fixtures. -/
def stepState (s : WaylandClientState) (e : WaylandEvent) :
    WaylandClientState :=
  match dispatchEvent s e with
  | .ok (s', _) => s'
  | .error _ => s

/-- Fixture: all toolkit callbacks registered. -/
def allCallbacks : RegisteredCallbacks := ⟨true, true, true, true, true⟩

/-- Fixture: `open_window` options asking for fixed 800×600 bounds. -/
def fixedOptions : WindowOptions := ⟨.fixed 0 0 800 600⟩

/-- Fixture: one window (id 0) opened from the initial state. -/
def stateOneWindow : WaylandClientState :=
  (openWindow initialState fixedOptions allCallbacks).1

/-- Fixture: window 0 as stored right after `open_window`. -/
def window0 : WaylandWindowState := ⟨0, 800, 600, false, allCallbacks⟩

/-- Fixture: window 0 after its first shell-surface configure. -/
def window0c : WaylandWindowState := ⟨0, 800, 600, true, allCallbacks⟩

/-- Fixture: the one-window state after `xdg_surface` Configure(serial 7):
the frame-callback flag is set and one frame callback is live. -/
def stateConfigured : WaylandClientState :=
  stepState stateOneWindow (.surfaceConfigure 0 7)

theorem reachable_stateOneWindow : Reachable stateOneWindow :=
  Reachable.openWindow fixedOptions allCallbacks Reachable.init

theorem reachable_stateConfigured : Reachable stateConfigured :=
  Reachable.step (e := .surfaceConfigure 0 7) reachable_stateOneWindow
    trivial rfl

/-- C4: a shell-surface configure acks the event's serial before anything
else (in particular before the commit), requests exactly one frame
callback when none is outstanding and none otherwise, invokes the
registered request-frame callback once, and issues exactly one commit;
afterwards the window's frame-callback flag is set. -/
theorem xdgSurfaceConfigure_ack_before_commit (s : WaylandClientState)
    (id serial : Nat) (w : WaylandWindowState)
    (hw : lookupWindow s.windows id = some w) :
    ∃ s' tr, xdgSurfaceConfigure s id serial = .ok (s', tr) ∧
      tr.head? = some (.ackConfigure id serial) ∧
      tr.count (.frameRequest id) =
        (if w.frame_callback_requested then 0 else 1) ∧
      tr.count (.commit id) = 1 ∧
      (w.callbacks.request_frame = true →
        tr.count (.requestFrameCb id) = 1) ∧
      lookupWindow s'.windows id =
        some { w with frame_callback_requested := true } := by
  simp only [xdgSurfaceConfigure, hw]
  refine ⟨_, _, rfl, ?_, ?_, ?_, ?_, ?_⟩
  · by_cases hf : w.frame_callback_requested <;>
      simp [windowUpdate, hf]
  · by_cases hf : w.frame_callback_requested <;>
      by_cases hr : w.callbacks.request_frame = true <;>
      simp [windowUpdate, hf, hr, List.count_cons]
  · by_cases hf : w.frame_callback_requested <;>
      by_cases hr : w.callbacks.request_frame = true <;>
      simp [windowUpdate, hf, hr, List.count_cons]
  · intro hr
    by_cases hf : w.frame_callback_requested <;>
      simp [windowUpdate, hf, hr, List.count_cons]
  · exact lookupWindow_storeWindow_self hw

/-- Witness for C4 at the fresh one-window state with serial 7. -/
theorem xdgSurfaceConfigure_ack_before_commit_witness :
    lookupWindow stateOneWindow.windows 0 = some window0 ∧
    ∃ s' tr, xdgSurfaceConfigure stateOneWindow 0 7 = .ok (s', tr) ∧
      tr.head? = some (.ackConfigure 0 7) ∧
      tr.count (.frameRequest 0) = 1 ∧
      tr.count (.commit 0) = 1 ∧
      (window0.callbacks.request_frame = true →
        tr.count (.requestFrameCb 0) = 1) ∧
      lookupWindow s'.windows 0 =
        some { window0 with frame_callback_requested := true } := by
  have h := xdgSurfaceConfigure_ack_before_commit stateOneWindow 0 7 window0
    (by rfl)
  obtain ⟨s', tr, h1, h2, h3, h4, h5, h6⟩ := h
  exact ⟨by rfl, s', tr, h1, h2, by simpa [window0] using h3, h4, h5, h6⟩

/-- C6: a toplevel configure with a zero width or height applies the
fallback geometry 1280×720: the resolved size is stored in the window,
pushed to the renderer drawable-size update, and then the resize callback
fires with that size and scale 1.0, followed by the moved callback. -/
theorem xdgToplevelConfigure_zero_size_fallback (s : WaylandClientState)
    (id : Nat) (width height : Int) (w : WaylandWindowState)
    (hw : lookupWindow s.windows id = some w)
    (hz : width = 0 ∨ height = 0)
    (hr : w.callbacks.resize = true) (hm : w.callbacks.moved = true) :
    xdgToplevelConfigure s id width height =
      .ok ({ s with windows :=
              (storeWindow s.windows id { w with width := 1280, height := 720 }) },
        [.updateDrawableSize id 1280 720, .resizeCb id 1280 720 1,
          .movedCb id]) ∧
    lookupWindow
        (storeWindow s.windows id { w with width := 1280, height := 720 }) id =
      some { w with width := 1280, height := 720 } ∧
    (1280 : Int) ≠ 0 ∧ (720 : Int) ≠ 0 := by
  refine ⟨?_, lookupWindow_storeWindow_self hw, by decide, by decide⟩
  unfold xdgToplevelConfigure
  rw [if_pos hz, hw]
  simp [windowResize, hr, hm]

/-- Witness for C6: configure(width 0, height 0) on the one-window state. -/
theorem xdgToplevelConfigure_zero_size_fallback_witness :
    lookupWindow stateOneWindow.windows 0 = some window0 ∧
    ((0 : Int) = 0 ∨ (0 : Int) = 0) ∧
    xdgToplevelConfigure stateOneWindow 0 0 0 =
      .ok ({ stateOneWindow with windows :=
              (storeWindow stateOneWindow.windows 0
                { window0 with width := 1280, height := 720 }) },
        [.updateDrawableSize 0 1280 720, .resizeCb 0 1280 720 1,
          .movedCb 0]) := by
  have h := xdgToplevelConfigure_zero_size_fallback stateOneWindow 0 0 0
    window0 (by rfl) (Or.inl rfl) (by rfl) (by rfl)
  exact ⟨by rfl, Or.inl rfl, h.1⟩

/-- Fixture: an abstract keymap resolving every keycode to letter `a`
(code point 97). -/
def kmFixture : XkbKeymapState :=
  ⟨fun _ => 97, fun _ => "a", fun _ => "A"⟩

/-- Fixture: one window, keymap installed, keyboard focus on window 0. -/
def stateWithKeymap : WaylandClientState :=
  { stateOneWindow with
      keymap_state := some kmFixture
      keyboard_focused_window := some 0 }

/-- C9: with a keymap installed, a key event attaches ime text exactly
when the resolved code point is 0 or is neither a control character nor
DEL, goes only to the keyboard-focused window (dropped when none), and the
held flag of a key-down is always false. -/
theorem wlKeyboardKey_ime_focus_held (s : WaylandClientState)
    (km : XkbKeymapState) (key : Nat) (pressed : Bool)
    (hkm : s.keymap_state = some km) :
    (s.keyboard_focused_window = none →
      wlKeyboardKey s key pressed = .ok (s, [])) ∧
    (∀ focused, s.keyboard_focused_window = some focused →
      ∃ ks : Keystroke,
        wlKeyboardKey s key pressed =
          .ok (s, [.dispatchInput focused
            (if pressed then .keyDown ks false else .keyUp ks)]) ∧
        (ks.ime_key.isSome ↔
          (km.keyUtf32 (key + 8) = 0 ∨
            (32 ≤ km.keyUtf32 (key + 8) ∧ km.keyUtf32 (key + 8) ≠ 127)))) := by
  constructor
  · intro hfoc
    simp [wlKeyboardKey, hkm, hfoc]
  · intro focused hfoc
    refine ⟨⟨s.modifiers, (km.keySymName (key + 8)).toLower,
      (if km.keyUtf32 (key + 8) = 0 ∨
          (32 ≤ km.keyUtf32 (key + 8) ∧ km.keyUtf32 (key + 8) ≠ 127)
        then some (km.keyUtf8 (key + 8)) else none)⟩, ?_, ?_⟩
    · simp [wlKeyboardKey, hkm, hfoc]
    · by_cases hc : km.keyUtf32 (key + 8) = 0 ∨
          (32 ≤ km.keyUtf32 (key + 8) ∧ km.keyUtf32 (key + 8) ≠ 127) <;>
        simp [hc]

/-- Witness for C9: key 30 pressed in the keymap fixture state resolves to
code point 97, so ime text is attached and the key-down is not held. -/
theorem wlKeyboardKey_ime_focus_held_witness :
    stateWithKeymap.keymap_state = some kmFixture ∧
    ∃ ks : Keystroke,
      wlKeyboardKey stateWithKeymap 30 true =
        .ok (stateWithKeymap, [.dispatchInput 0 (.keyDown ks false)]) ∧
      ks.ime_key.isSome = true := by
  have h := wlKeyboardKey_ime_focus_held stateWithKeymap kmFixture 30 true rfl
  obtain ⟨ks, hks, hiff⟩ := h.2 0 rfl
  refine ⟨rfl, ks, by simpa using hks, ?_⟩
  rw [hiff]
  right
  exact ⟨by decide, by decide⟩

/-- C10: a toplevel close destroys the proxy and removes the window from
the table unconditionally; the trace contains no should-close and no close
callback invocation, whatever callbacks the window has registered. -/
theorem xdgToplevelClose_skips_close_callbacks (s : WaylandClientState)
    (id : Nat) (w : WaylandWindowState)
    (hw : lookupWindow s.windows id = some w) :
    ∃ s', xdgToplevelClose s id =
        .ok (s', [.destroyToplevel id, .removeWindow id]) ∧
      lookupWindow s'.windows id = none ∧
      Effect.shouldCloseCb id ∉
        ([.destroyToplevel id, .removeWindow id] : List Effect) ∧
      Effect.closeCb id ∉
        ([.destroyToplevel id, .removeWindow id] : List Effect) := by
  refine ⟨_, rfl, ?_, by simp, by simp⟩
  exact lookupWindow_dropWindow_self s.windows id

/-- Witness for C10 at the one-window state (which has both a should-close
and a close callback registered). -/
theorem xdgToplevelClose_skips_close_callbacks_witness :
    lookupWindow stateOneWindow.windows 0 = some window0 ∧
    window0.callbacks.should_close = true ∧
    window0.callbacks.close = true ∧
    ∃ s', xdgToplevelClose stateOneWindow 0 =
        .ok (s', [.destroyToplevel 0, .removeWindow 0]) ∧
      lookupWindow s'.windows 0 = none := by
  have h := xdgToplevelClose_skips_close_callbacks stateOneWindow 0 window0
    (by rfl)
  obtain ⟨s', h1, h2, -, -⟩ := h
  exact ⟨by rfl, rfl, rfl, s', h1, h2⟩

/-- C5: in a reachable state no window ever has more than one live frame
callback; delivering `done` to a window whose frame callback is
outstanding re-arms it: the handler issues exactly one new frame-callback
request, invokes the registered request-frame callback, commits, leaves
the table unchanged, and afterwards the window again has exactly one live
frame callback. -/
theorem wlCallbackDone_rearm (s : WaylandClientState) (id : Nat)
    (w : WaylandWindowState) (hreach : Reachable s)
    (hw : lookupWindow s.windows id = some w)
    (hflag : w.frame_callback_requested = true)
    (hrf : w.callbacks.request_frame = true) :
    (∀ anyId, s.pendingCallbacks.count anyId ≤ 1) ∧
    s.pendingCallbacks.count id = 1 ∧
    ∃ s', wlCallbackDone s id =
        .ok (s', [.frameRequest id, .requestFrameCb id, .commit id]) ∧
      s'.pendingCallbacks.count id = 1 ∧
      s'.windows = s.windows := by
  have hgood := reachable_goodState hreach
  have hmem : (id, w) ∈ s.windows := lookupWindow_mem hw
  have hcount : s.pendingCallbacks.count id = 1 := by
    have := hgood.pendCount _ hmem
    simpa [hflag] using this
  have hpend : id ∈ s.pendingCallbacks :=
    List.one_le_count_iff.mp (by omega)
  refine ⟨hgood.pendAtMostOne, hcount, ?_⟩
  refine ⟨{ s with pendingCallbacks := (s.pendingCallbacks.erase id ++ [id]) },
    ?_, ?_, rfl⟩
  · simp [wlCallbackDone, hw, windowUpdate, hrf]
  · rw [count_erase_append_self hpend]
    exact hcount

/-- Witness for C5 at the configured one-window state (flag set, one live
frame callback). -/
theorem wlCallbackDone_rearm_witness :
    Reachable stateConfigured ∧
    lookupWindow stateConfigured.windows 0 = some window0c ∧
    window0c.frame_callback_requested = true ∧
    ∃ s', wlCallbackDone stateConfigured 0 =
        .ok (s', [.frameRequest 0, .requestFrameCb 0, .commit 0]) ∧
      s'.pendingCallbacks.count 0 = 1 := by
  have h := wlCallbackDone_rearm stateConfigured 0 window0c
    reachable_stateConfigured (by rfl) rfl rfl
  obtain ⟨-, -, s', h1, h2, -⟩ := h
  exact ⟨reachable_stateConfigured, by rfl, rfl, s', h1, h2⟩

/-- Fixture: the configured window 0 closed; the table is empty, quit is
requested, but its frame callback (requested by the configure) is still
live and will fire. -/
def stateClosed : WaylandClientState :=
  stepState stateConfigured (.toplevelClose 0)

/-- C1: a frame-callback done, a shell-surface configure, or a toplevel
configure that references a window id already removed by close does not
degrade to a no-op: each of the three handlers indexes the SlotMap with
the stale id and panics (modelled as `Except.error`). The state is
reachable and the straggling done event is genuinely deliverable, since
the close destroyed only the toplevel and the frame callback stayed live. -/
theorem straggler_events_panic :
    Reachable stateClosed ∧
    lookupWindow stateClosed.windows 0 = none ∧
    deliverable stateClosed (.callbackDone 0) ∧
    wlCallbackDone stateClosed 0 =
      .error "invalid SlotMap key used in wl_callback Done" ∧
    xdgSurfaceConfigure stateClosed 0 8 =
      .error "invalid SlotMap key used in xdg_surface Configure" ∧
    xdgToplevelConfigure stateClosed 0 800 600 =
      .error "invalid SlotMap key used in xdg_toplevel Configure" := by
  refine ⟨?_, rfl, ?_, rfl, rfl, rfl⟩
  · exact Reachable.step (e := .toplevelClose 0) reachable_stateConfigured
      trivial rfl
  · show 0 ∈ stateClosed.pendingCallbacks
    decide

/-- Fixture: keyboard enter on window 0's surface. -/
def stateKbFocused : WaylandClientState :=
  stepState stateOneWindow (.keyboardEnter 0)

/-- Fixture: the keyboard-focused window 0 closed; the focus field still
points at the removed window. -/
def stateKbFocusedClosed : WaylandClientState :=
  stepState stateKbFocused (.toplevelClose 0)

/-- C2 counterexample: open a window, focus it via keyboard enter, close
it; in the resulting reachable state `keyboard_focused_window` still
references window 0, which is no longer in the table. -/
theorem focus_dangles_after_close :
    Reachable stateKbFocusedClosed ∧
    stateKbFocusedClosed.keyboard_focused_window = some 0 ∧
    lookupWindow stateKbFocusedClosed.windows 0 = none := by
  refine ⟨?_, rfl, rfl⟩
  exact Reachable.step (e := .toplevelClose 0)
    (Reachable.step (e := .keyboardEnter 0) reachable_stateOneWindow
      trivial rfl)
    trivial rfl

theorem foldl_focus_mem {ws : List (Nat × WaylandWindowState)}
    {surfaceId : Nat} {init : Option Nat} {id : Nat}
    (h : ws.foldl
        (fun acc p => if p.2.surfaceId = surfaceId then some p.1 else acc)
        init = some id) :
    init = some id ∨ ∃ w, (id, w) ∈ ws := by
  induction ws generalizing init with
  | nil => exact Or.inl h
  | cons p rest ih =>
      rw [List.foldl_cons] at h
      rcases ih h with hinit | ⟨w, hw⟩
      · by_cases hc : p.2.surfaceId = surfaceId
        · rw [if_pos hc] at hinit
          right
          refine ⟨p.2, ?_⟩
          have hp1 : p.1 = id := Option.some.inj hinit
          rw [← hp1]
          exact List.mem_cons_self p rest
        · rw [if_neg hc] at hinit
          exact Or.inl hinit
      · exact Or.inr ⟨w, List.mem_cons_of_mem _ hw⟩

/-- C2 amended: an enter event (keyboard or pointer) changes a focus field
only to a window present in the table at the time of the event, but a
toplevel close leaves both focus fields untouched, so after closing the
focused window they still reference the removed window. -/
theorem enter_focus_live_close_keeps_focus :
    (∀ s s' tr surfaceId id, wlKeyboardEnter s surfaceId = .ok (s', tr) →
      s'.keyboard_focused_window = some id →
      s.keyboard_focused_window = some id ∨ ∃ w, (id, w) ∈ s.windows) ∧
    (∀ s s' tr surfaceId (x y : ℚ) id,
      wlPointerEnter s surfaceId x y = .ok (s', tr) →
      s'.mouse_focused_window = some id →
      s.mouse_focused_window = some id ∨ ∃ w, (id, w) ∈ s.windows) ∧
    (∀ s s' tr id, xdgToplevelClose s id = .ok (s', tr) →
      s'.keyboard_focused_window = s.keyboard_focused_window ∧
      s'.mouse_focused_window = s.mouse_focused_window) := by
  refine ⟨?_, ?_, ?_⟩
  · intro s s' tr surfaceId id hstep hfoc
    simp only [wlKeyboardEnter, Except.ok.injEq, Prod.mk.injEq] at hstep
    obtain ⟨hs, -⟩ := hstep
    subst hs
    exact foldl_focus_mem hfoc
  · intro s s' tr surfaceId x y id hstep hfoc
    simp only [wlPointerEnter, Except.ok.injEq, Prod.mk.injEq] at hstep
    obtain ⟨hs, -⟩ := hstep
    subst hs
    exact foldl_focus_mem hfoc
  · intro s s' tr id hstep
    simp only [xdgToplevelClose, Except.ok.injEq, Prod.mk.injEq] at hstep
    obtain ⟨hs, -⟩ := hstep
    subst hs
    exact ⟨rfl, rfl⟩

/-- Witness for the amended C2 at the concrete enter/close trace. -/
theorem enter_focus_live_close_keeps_focus_witness :
    (stateOneWindow.keyboard_focused_window = some 0 ∨
      ∃ w, (0, w) ∈ stateOneWindow.windows) ∧
    stateKbFocusedClosed.keyboard_focused_window =
      stateKbFocused.keyboard_focused_window := by
  obtain ⟨h1, -, h3⟩ := enter_focus_live_close_keeps_focus
  refine ⟨h1 stateOneWindow stateKbFocused [] 0 0 rfl rfl, ?_⟩
  exact (h3 stateKbFocused stateKbFocusedClosed
    [.destroyToplevel 0, .removeWindow 0] 0 rfl).1

/-- Fixture: window 0 closed (quit becomes requested, table empty). -/
def c3Closed1 : WaylandClientState :=
  stepState stateOneWindow (.toplevelClose 0)

/-- Fixture: a second window (id 1) opened after quit was requested. -/
def c3Open2 : WaylandClientState :=
  (openWindow c3Closed1 fixedOptions allCallbacks).1

/-- Fixture: a third window (id 2) opened as well. -/
def c3Open3 : WaylandClientState :=
  (openWindow c3Open2 fixedOptions allCallbacks).1

/-- Fixture: window 1 closed out of `c3Open3`. -/
def c3Closed2 : WaylandClientState := stepState c3Open3 (.toplevelClose 1)

theorem reachable_c3Open3 : Reachable c3Open3 :=
  Reachable.openWindow fixedOptions allCallbacks
    (Reachable.openWindow fixedOptions allCallbacks
      (Reachable.step (e := .toplevelClose 0) reachable_stateOneWindow
        trivial rfl))

/-- C3 counterexample: close window 0 (quit becomes requested), open
windows 1 and 2, then close window 1 — a close of a window that is in the
table after which the quit flag is set although the table is not empty:
the flag is only ever or-ed, never recomputed. -/
theorem quit_flag_not_iff_empty :
    Reachable c3Open3 ∧
    lookupWindow c3Open3.windows 1 = some ⟨1, 800, 600, false, allCallbacks⟩ ∧
    xdgToplevelClose c3Open3 1 =
      .ok (c3Closed2, [.destroyToplevel 1, .removeWindow 1]) ∧
    c3Closed2.quit_requested = true ∧
    c3Closed2.windows ≠ [] := by
  exact ⟨reachable_c3Open3, rfl, rfl, rfl, by decide⟩

/-- C3 amended: a close of a window in the table destroys the toplevel
proxy before removing the window (destroy precedes the removal in the
trace), shrinks the table by exactly one entry, and or-s the quit flag
with the table's emptiness after the removal, so when the flag was not
already set it becomes set exactly when the table is now empty (and once
set it is never cleared). -/
theorem close_destroys_removes_sets_quit (s : WaylandClientState) (id : Nat)
    (w : WaylandWindowState) (hreach : Reachable s)
    (hw : lookupWindow s.windows id = some w) :
    ∃ s', xdgToplevelClose s id =
        .ok (s', [.destroyToplevel id, .removeWindow id]) ∧
      s'.windows.length + 1 = s.windows.length ∧
      s'.quit_requested = (s.quit_requested || s'.windows.isEmpty) ∧
      (s.quit_requested = false →
        (s'.quit_requested = true ↔ s'.windows = [])) := by
  have hnd := (reachable_goodState hreach).keysNodup
  refine ⟨_, rfl, dropWindow_length hnd hw, rfl, ?_⟩
  intro hq
  simp [hq, List.isEmpty_iff]

/-- Witness for the amended C3: closing the only window empties the table
and sets the quit flag. -/
theorem close_destroys_removes_sets_quit_witness :
    Reachable stateOneWindow ∧
    lookupWindow stateOneWindow.windows 0 = some window0 ∧
    stateOneWindow.quit_requested = false ∧
    ∃ s', xdgToplevelClose stateOneWindow 0 =
        .ok (s', [.destroyToplevel 0, .removeWindow 0]) ∧
      s'.windows.length + 1 = stateOneWindow.windows.length ∧
      (s'.quit_requested = true ↔ s'.windows = []) := by
  obtain ⟨s', h1, h2, h3, h4⟩ := close_destroys_removes_sets_quit
    stateOneWindow 0 window0 reachable_stateOneWindow (by rfl)
  exact ⟨reachable_stateOneWindow, by rfl, rfl, s', h1, h2, h4 rfl⟩

/-- C8 counterexample: a pointer motion processed while no window is
mouse-focused leaves the cached location unchanged (here: still unset),
instead of updating it to the event's coordinates as claimed. -/
theorem motion_no_focus_keeps_location :
    Reachable initialState ∧
    initialState.mouse_focused_window = none ∧
    wlPointerMotion initialState 20 40 = .ok (initialState, []) ∧
    initialState.mouse_location ≠ some ⟨20, 40⟩ :=
  ⟨Reachable.init, rfl, rfl, by decide⟩

/-- C8 amended: a pointer motion updates the cached location and
dispatches a move event carrying the new location, the pressed button and
the current modifiers only when a window is mouse-focused; with no focused
window the handler is a strict no-op and the cached location keeps its old
value. -/
theorem motion_updates_location_only_when_focused :
    (∀ s (x y : ℚ) focused, s.mouse_focused_window = some focused →
      wlPointerMotion s x y =
        .ok ({ s with mouse_location := some ⟨x, y⟩ },
          [.dispatchInput focused
            (.mouseMove ⟨x, y⟩ s.button_pressed s.modifiers)])) ∧
    (∀ s (x y : ℚ), s.mouse_focused_window = none →
      wlPointerMotion s x y = .ok (s, [])) := by
  constructor
  · intro s x y focused hfoc
    simp [wlPointerMotion, hfoc]
  · intro s x y hfoc
    simp [wlPointerMotion, hfoc]

/-- Fixture: pointer enter on window 0's surface at (12, 34). -/
def stateMouseFocused : WaylandClientState :=
  stepState stateOneWindow (.pointerEnter 0 12 34)

/-- Witness for the amended C8: motion to (20, 40) after entering window 0
at (12, 34), and a motion in the unfocused initial state. -/
theorem motion_updates_location_only_when_focused_witness :
    stateMouseFocused.mouse_focused_window = some 0 ∧
    wlPointerMotion stateMouseFocused 20 40 =
      .ok ({ stateMouseFocused with mouse_location := some ⟨20, 40⟩ },
        [.dispatchInput 0 (.mouseMove ⟨20, 40⟩ stateMouseFocused.button_pressed
          stateMouseFocused.modifiers)]) ∧
    wlPointerMotion initialState 1 2 = .ok (initialState, []) := by
  obtain ⟨h1, h2⟩ := motion_updates_location_only_when_focused
  exact ⟨rfl, h1 stateMouseFocused 20 40 0 rfl, h2 initialState 1 2 rfl⟩

/-- C7 counterexample: in the reachable initial state the scroll-direction
multiplier is the derived `f64` default `0.0`, not `+1` or `-1`; until the
first axis-relative-direction event every scroll delta is multiplied by 0. -/
theorem scroll_direction_zero_initially :
    Reachable initialState ∧
    initialState.scroll_direction = 0 ∧
    ¬(initialState.scroll_direction = 1 ∨
      initialState.scroll_direction = -1) :=
  ⟨Reachable.init, rfl, by decide⟩

/-- C7 amended: the scroll-direction multiplier starts at 0 (derived
default) and is changed only by an axis-relative-direction event, which
always sets it to `-1` (Identical) or `+1` (Inverted); every dispatched
axis event delivers a pixel delta equal to the raw value times the current
multiplier along the indicated axis. -/
theorem scroll_direction_behavior :
    (∀ s d s' tr, wlPointerAxisRelativeDirection s d = .ok (s', tr) →
      s'.scroll_direction = -1 ∨ s'.scroll_direction = 1) ∧
    (∀ s e s' tr, dispatchEvent s e = .ok (s', tr) →
      (∀ d, e ≠ .pointerAxisRelativeDirection d) →
      s'.scroll_direction = s.scroll_direction) ∧
    (∀ s axis (value : ℚ) focused loc,
      s.mouse_focused_window = some focused →
      s.mouse_location = some loc →
      wlPointerAxis s axis value = .ok (s,
        [.dispatchInput focused (.scrollWheel loc
          (match axis with
            | .verticalScroll => .pixels 0 (value * s.scroll_direction)
            | .horizontalScroll => .pixels (value * s.scroll_direction) 0)
          s.modifiers .started)])) := by
  refine ⟨?_, ?_, ?_⟩
  · intro s d s' tr hstep
    simp only [wlPointerAxisRelativeDirection, Except.ok.injEq,
      Prod.mk.injEq] at hstep
    obtain ⟨hs, -⟩ := hstep
    subst hs
    cases d
    · left; rfl
    · right; rfl
  · intro s e s' tr hstep hne
    cases e with
    | callbackDone id =>
        simp only [dispatchEvent, wlCallbackDone] at hstep
        cases hlook : lookupWindow s.windows id with
        | none => rw [hlook] at hstep; exact absurd hstep (by simp)
        | some w =>
            rw [hlook] at hstep
            simp only [Except.ok.injEq, Prod.mk.injEq] at hstep
            obtain ⟨hs, -⟩ := hstep
            subst hs
            rfl
    | surfaceConfigure id serial =>
        simp only [dispatchEvent, xdgSurfaceConfigure] at hstep
        cases hlook : lookupWindow s.windows id with
        | none => rw [hlook] at hstep; exact absurd hstep (by simp)
        | some w =>
            rw [hlook] at hstep
            simp only [Except.ok.injEq, Prod.mk.injEq] at hstep
            obtain ⟨hs, -⟩ := hstep
            subst hs
            rfl
    | toplevelConfigure id width height =>
        simp only [dispatchEvent, xdgToplevelConfigure] at hstep
        cases hlook : lookupWindow s.windows id with
        | none => rw [hlook] at hstep; exact absurd hstep (by simp)
        | some w =>
            rw [hlook] at hstep
            simp only [windowResize, Except.ok.injEq, Prod.mk.injEq] at hstep
            obtain ⟨hs, -⟩ := hstep
            subst hs
            rfl
    | toplevelClose id =>
        simp only [dispatchEvent, xdgToplevelClose, Except.ok.injEq,
          Prod.mk.injEq] at hstep
        obtain ⟨hs, -⟩ := hstep
        subst hs
        rfl
    | toplevelConfigureBounds =>
        simp only [dispatchEvent, Except.ok.injEq, Prod.mk.injEq] at hstep
        obtain ⟨hs, -⟩ := hstep
        subst hs
        rfl
    | toplevelWmCapabilities =>
        simp only [dispatchEvent, Except.ok.injEq, Prod.mk.injEq] at hstep
        obtain ⟨hs, -⟩ := hstep
        subst hs
        rfl
    | wmBasePing serial =>
        simp only [dispatchEvent, xdgWmBasePing, Except.ok.injEq,
          Prod.mk.injEq] at hstep
        obtain ⟨hs, -⟩ := hstep
        subst hs
        rfl
    | keyboardKeymap f km =>
        simp only [dispatchEvent, wlKeyboardKeymap] at hstep
        by_cases hf : f = true
        · simp only [if_pos hf, Except.ok.injEq, Prod.mk.injEq] at hstep
          obtain ⟨hs, -⟩ := hstep
          subst hs
          rfl
        · simp only [hf] at hstep
          simp at hstep
    | keyboardEnter surfaceId =>
        simp only [dispatchEvent, wlKeyboardEnter, Except.ok.injEq,
          Prod.mk.injEq] at hstep
        obtain ⟨hs, -⟩ := hstep
        subst hs
        rfl
    | keyboardKey key pressed =>
        simp only [dispatchEvent, wlKeyboardKey] at hstep
        cases hk : s.keymap_state with
        | none => rw [hk] at hstep; exact absurd hstep (by simp)
        | some km =>
            rw [hk] at hstep
            cases hf : s.keyboard_focused_window with
            | some focused =>
                rw [hf] at hstep
                simp only [Except.ok.injEq, Prod.mk.injEq] at hstep
                obtain ⟨hs, -⟩ := hstep
                subst hs
                rfl
            | none =>
                rw [hf] at hstep
                simp only [Except.ok.injEq, Prod.mk.injEq] at hstep
                obtain ⟨hs, -⟩ := hstep
                subst hs
                rfl
    | keyboardLeave =>
        simp only [dispatchEvent, wlKeyboardLeave, Except.ok.injEq,
          Prod.mk.injEq] at hstep
        obtain ⟨hs, -⟩ := hstep
        subst hs
        rfl
    | pointerEnter surfaceId x y =>
        simp only [dispatchEvent, wlPointerEnter, Except.ok.injEq,
          Prod.mk.injEq] at hstep
        obtain ⟨hs, -⟩ := hstep
        subst hs
        rfl
    | pointerMotion x y =>
        simp only [dispatchEvent, wlPointerMotion] at hstep
        cases hf : s.mouse_focused_window with
        | some focused =>
            rw [hf] at hstep
            simp only [Except.ok.injEq, Prod.mk.injEq] at hstep
            obtain ⟨hs, -⟩ := hstep
            subst hs
            rfl
        | none =>
            rw [hf] at hstep
            simp only [Except.ok.injEq, Prod.mk.injEq] at hstep
            obtain ⟨hs, -⟩ := hstep
            subst hs
            rfl
    | pointerButton button pressed =>
        simp only [dispatchEvent, wlPointerButton] at hstep
        cases hf : s.mouse_focused_window with
        | none =>
            rw [hf] at hstep
            simp only [Except.ok.injEq, Prod.mk.injEq] at hstep
            obtain ⟨hs, -⟩ := hstep
            subst hs
            rfl
        | some focused =>
            rw [hf] at hstep
            cases hl : s.mouse_location with
            | none =>
                rw [hl] at hstep
                simp only [Except.ok.injEq, Prod.mk.injEq] at hstep
                obtain ⟨hs, -⟩ := hstep
                subst hs
                rfl
            | some loc =>
                rw [hl] at hstep
                cases hb : linux_button_to_gpui button with
                | none => rw [hb] at hstep; exact absurd hstep (by simp)
                | some b =>
                    rw [hb] at hstep
                    by_cases hp : pressed = true
                    · simp only [if_pos hp, Except.ok.injEq,
                        Prod.mk.injEq] at hstep
                      obtain ⟨hs, -⟩ := hstep
                      subst hs
                      rfl
                    · simp only [if_neg hp, Except.ok.injEq,
                        Prod.mk.injEq] at hstep
                      obtain ⟨hs, -⟩ := hstep
                      subst hs
                      rfl
    | pointerAxisRelativeDirection d => exact absurd rfl (hne d)
    | pointerAxis axis value =>
        simp only [dispatchEvent, wlPointerAxis] at hstep
        cases hf : s.mouse_focused_window with
        | none =>
            rw [hf] at hstep
            simp only [Except.ok.injEq, Prod.mk.injEq] at hstep
            obtain ⟨hs, -⟩ := hstep
            subst hs
            rfl
        | some focused =>
            rw [hf] at hstep
            cases hl : s.mouse_location with
            | none =>
                rw [hl] at hstep
                simp only [Except.ok.injEq, Prod.mk.injEq] at hstep
                obtain ⟨hs, -⟩ := hstep
                subst hs
                rfl
            | some loc =>
                rw [hl] at hstep
                simp only [Except.ok.injEq, Prod.mk.injEq] at hstep
                obtain ⟨hs, -⟩ := hstep
                subst hs
                rfl
    | pointerLeave =>
        simp only [dispatchEvent, wlPointerLeave, Except.ok.injEq,
          Prod.mk.injEq] at hstep
        obtain ⟨hs, -⟩ := hstep
        subst hs
        rfl
  · intro s axis value focused loc hfoc hl
    cases axis <;> simp [wlPointerAxis, hfoc, hl]

/-- Witness for the amended C7: an Inverted direction event sets the
multiplier to a unit value, an unrelated motion event preserves it, and a
vertical axis event in the mouse-focused fixture delivers
`value * scroll_direction`. -/
theorem scroll_direction_behavior_witness :
    ((stepState initialState
        (.pointerAxisRelativeDirection .inverted)).scroll_direction = -1 ∨
      (stepState initialState
        (.pointerAxisRelativeDirection .inverted)).scroll_direction = 1) ∧
    (stepState stateMouseFocused (.pointerMotion 20 40)).scroll_direction =
      stateMouseFocused.scroll_direction ∧
    wlPointerAxis stateMouseFocused .verticalScroll 10 =
      .ok (stateMouseFocused,
        [.dispatchInput 0 (.scrollWheel ⟨12, 34⟩
          (.pixels 0 (10 * stateMouseFocused.scroll_direction))
          stateMouseFocused.modifiers .started)]) := by
  obtain ⟨h1, h2, h3⟩ := scroll_direction_behavior
  refine ⟨?_, ?_, ?_⟩
  · exact h1 initialState .inverted _ [] rfl
  · exact h2 stateMouseFocused (.pointerMotion 20 40) _ _ rfl
      (fun d => by simp)
  · exact h3 stateMouseFocused .verticalScroll 10 0 ⟨12, 34⟩ rfl rfl

end Wayland
